import Mathlib

/-!
# A verification development for the culturalAI retrieval-and-grounding pipeline

This file gives a shallow embedding, in Lean 4, of the core of the
culturalAI repository: the article-output schema validator and repair
function (`src/lib/core/schema.ts`), the deterministic markdown renderer
(`src/lib/core/render-markdown.ts`), the heuristic fallback intent
classifier (`src/lib/rag/query-builder.ts`), the humanities document
schema and knowledge base (`src/lib/rag/document-schema.ts`,
`src/lib/rag/knowledge-base.ts`), the hybrid retriever with its scoring
and diversification passes (the retriever module), and the audit stage of
the humanities pipeline (the pipeline module).

Conventions of the embedding:
* The JavaScript numbers used by the scoring function are modelled
  exactly: every additive weight of the source is a decimal number of
  tenths, and the two multiplicative bonuses have fixed denominators 2
  and 10, so the exact real value of a relevance score, multiplied by
  200, is an integer.  `calculateRelevanceScore` below returns that
  integer (the score in units of 1/200).  The scale factor is a fixed
  positive constant, so every comparison the retriever performs (the
  `score <= 0` filter, the descending sort, and the monotonicity
  properties of the specification) is preserved verbatim.
* Exceptions are modelled with `Except`/`Option`; a TypeScript function
  that cannot throw is embedded as a total Lean function.
* External collaborators (the LLM calls) are modelled by their outcome:
  a value of type `Except String String` standing for either a thrown
  error or returned raw text.
* `JSON.parse` (a JavaScript builtin, not repository code) is embedded as
  a fuel-based recursive-descent parser of the JSON grammar; surrogate
  pairs in `\uXXXX` escapes are not combined, which is irrelevant to the
  ASCII inputs appearing in the theorems below.
-/

namespace CulturalAI

/-- `containsPat pat cs` is true when `pat` occurs as a contiguous
subsequence of `cs`. -/
def containsPat (pat : List Char) : List Char → Bool
  | [] => pat.isEmpty
  | c :: rest => pat.isPrefixOf (c :: rest) || containsPat pat rest

/-- `strIncludes h n` models the JavaScript `h.includes(n)` substring test. -/
def strIncludes (h n : String) : Bool :=
  containsPat n.data h.data

/-- JavaScript `s.trim()`: drop leading and trailing whitespace. -/
def jsTrim (s : String) : String :=
  ⟨((s.data.dropWhile Char.isWhitespace).reverse.dropWhile Char.isWhitespace).reverse⟩

/-- JavaScript `s.slice(0, n)`: the first `n` characters of `s`. -/
def strTake (s : String) (n : Nat) : String := ⟨s.data.take n⟩

/-- JavaScript `s.toLowerCase()` (ASCII case mapping). -/
def strToLower (s : String) : String := ⟨s.data.map Char.toLower⟩

/-- Split a character list at every character satisfying `p`; like the
JavaScript `String.prototype.split`, adjacent separators produce empty
fields. -/
def splitPred (p : Char → Bool) : List Char → List (List Char)
  | [] => [[]]
  | c :: rest =>
    let groups := splitPred p rest
    if p c then [] :: groups
    else
      match groups with
      | [] => [[c]]
      | g :: gs => (c :: g) :: gs

/-- JavaScript `s.split(sep)` for a single-character separator, and
`s.split(/\s+/)` up to empty fields (which every use below filters out). -/
def strSplitPred (p : Char → Bool) (s : String) : List String :=
  (splitPred p s.data).map String.mk

/-! ## JSON values and `JSON.parse` -/

/-- JSON values, as produced by JavaScript `JSON.parse`. -/
inductive Json where
  | null
  | bool (b : Bool)
  | num (q : ℚ)
  | str (s : String)
  | arr (elems : List Json)
  | obj (fields : List (String × Json))

/-- The double-quote character. -/
def quoteChar : Char := Char.ofNat 34

/-- The opening brace character. -/
def lbraceChar : Char := Char.ofNat 123

/-- The closing brace character. -/
def rbraceChar : Char := Char.ofNat 125

/-- JSON insignificant whitespace (space, tab, line feed, carriage return). -/
def isJsonWs (c : Char) : Bool :=
  c = ' ' || c = Char.ofNat 9 || c = Char.ofNat 10 || c = Char.ofNat 13

/-- Drop leading JSON whitespace. -/
def skipWs (cs : List Char) : List Char := cs.dropWhile isJsonWs

/-- Value of a hexadecimal digit. -/
def hexVal (c : Char) : Option Nat :=
  if '0' ≤ c ∧ c ≤ '9' then some (c.toNat - 48)
  else if 'a' ≤ c ∧ c ≤ 'f' then some (c.toNat - 87)
  else if 'A' ≤ c ∧ c ≤ 'F' then some (c.toNat - 70)
  else none

/-- Parse the body of a JSON string literal (the opening quote is already
consumed); returns the decoded characters and the rest of the input. -/
def parseStringBody : Nat → List Char → Option (List Char × List Char)
  | 0, _ => none
  | _, [] => none
  | fuel + 1, c :: rest =>
    if c = quoteChar then
      some ([], rest)
    else if c = '\\' then
      match rest with
      | [] => none
      | e :: rest2 =>
        let esc : Option (Char × List Char) :=
          if e = quoteChar then some (quoteChar, rest2)
          else if e = '\\' then some ('\\', rest2)
          else if e = '/' then some ('/', rest2)
          else if e = 'b' then some (Char.ofNat 8, rest2)
          else if e = 'f' then some (Char.ofNat 12, rest2)
          else if e = 'n' then some (Char.ofNat 10, rest2)
          else if e = 'r' then some (Char.ofNat 13, rest2)
          else if e = 't' then some (Char.ofNat 9, rest2)
          else if e = 'u' then
            match rest2 with
            | h1 :: h2 :: h3 :: h4 :: rest3 =>
              match hexVal h1, hexVal h2, hexVal h3, hexVal h4 with
              | some a, some b, some c2, some d =>
                some (Char.ofNat (((a * 16 + b) * 16 + c2) * 16 + d), rest3)
              | _, _, _, _ => none
            | _ => none
          else none
        match esc with
        | some (ch, rest3) =>
          match parseStringBody fuel rest3 with
          | some (out, rem) => some (ch :: out, rem)
          | none => none
        | none => none
    else if c.toNat < 32 then none
    else
      match parseStringBody fuel rest with
      | some (out, rem) => some (c :: out, rem)
      | none => none

/-- Decimal digits to a natural number. -/
def digitsToNat (ds : List Char) : Nat :=
  ds.foldl (fun n c => n * 10 + (c.toNat - 48)) 0

/-- Parse an optional JSON fraction part (digits after a decimal point). -/
def parseFrac (cs : List Char) : Option (List Char × List Char) :=
  match cs with
  | c :: rest =>
    if c = '.' then
      let fd := rest.takeWhile Char.isDigit
      if fd.isEmpty then none else some (fd, rest.dropWhile Char.isDigit)
    else some ([], cs)
  | [] => some ([], cs)

/-- Parse an optional JSON exponent part. -/
def parseExp (cs : List Char) : Option (Int × List Char) :=
  match cs with
  | c :: rest =>
    if c = 'e' ∨ c = 'E' then
      let signAndRest : Int × List Char :=
        match rest with
        | s :: r2 => if s = '+' then (1, r2) else if s = '-' then (-1, r2) else (1, rest)
        | [] => (1, rest)
      let ed := signAndRest.2.takeWhile Char.isDigit
      if ed.isEmpty then none
      else some (signAndRest.1 * (digitsToNat ed : Int), signAndRest.2.dropWhile Char.isDigit)
    else some (0, cs)
  | [] => some (0, cs)

/-- Parse a JSON number (`-?int frac? exp?`, with the strict JSON grammar:
no leading zeros, at least one digit in each part). -/
def parseNumber (cs : List Char) : Option (ℚ × List Char) :=
  let signAndRest : Bool × List Char :=
    match cs with
    | c :: rest => if c = '-' then (true, rest) else (false, cs)
    | [] => (false, cs)
  let neg := signAndRest.1
  let cs1 := signAndRest.2
  match cs1 with
  | [] => none
  | d :: _ =>
    if d.isDigit = false then none
    else
      let intAndRest : List Char × List Char :=
        if d = '0' then ([d], cs1.drop 1)
        else (cs1.takeWhile Char.isDigit, cs1.dropWhile Char.isDigit)
      match parseFrac intAndRest.2 with
      | none => none
      | some (fracDigits, cs3) =>
        match parseExp cs3 with
        | none => none
        | some (expVal, cs4) =>
          let mantissa : ℚ := (digitsToNat (intAndRest.1 ++ fracDigits) : ℚ)
          let signed : ℚ := if neg then -mantissa else mantissa
          let scale : ℤ := expVal - (fracDigits.length : ℤ)
          some (signed * (10 : ℚ) ^ scale, cs4)

mutual

/-- Recursive-descent parser for a JSON value (fuel-based; the fuel chosen
by `jsonParse` is generous enough for every input). -/
def parseValue : Nat → List Char → Option (Json × List Char)
  | 0, _ => none
  | fuel + 1, cs0 =>
    let cs := skipWs cs0
    match cs with
    | [] => none
    | c :: rest =>
      if c = quoteChar then
        match parseStringBody (rest.length + 1) rest with
        | some (out, rem) => some (.str (String.mk out), rem)
        | none => none
      else if c = lbraceChar then
        let cs1 := skipWs rest
        match cs1 with
        | c1 :: rest1 =>
          if c1 = rbraceChar then some (.obj [], rest1)
          else
            match parseMembers fuel cs1 with
            | some (fields, rem) => some (.obj fields, rem)
            | none => none
        | [] => none
      else if c = '[' then
        let cs1 := skipWs rest
        match cs1 with
        | c1 :: rest1 =>
          if c1 = ']' then some (.arr [], rest1)
          else
            match parseElems fuel cs1 with
            | some (elems, rem) => some (.arr elems, rem)
            | none => none
        | [] => none
      else if ("null".data).isPrefixOf cs then some (.null, cs.drop 4)
      else if ("true".data).isPrefixOf cs then some (.bool true, cs.drop 4)
      else if ("false".data).isPrefixOf cs then some (.bool false, cs.drop 5)
      else
        match parseNumber cs with
        | some (q, rem) => some (.num q, rem)
        | none => none

/-- Parse one or more `"key": value` members of a JSON object. -/
def parseMembers : Nat → List Char → Option (List (String × Json) × List Char)
  | 0, _ => none
  | fuel + 1, cs0 =>
    let cs := skipWs cs0
    match cs with
    | c :: rest =>
      if c = quoteChar then
        match parseStringBody (rest.length + 1) rest with
        | some (key, rest2) =>
          match skipWs rest2 with
          | c2 :: rest3 =>
            if c2 = ':' then
              match parseValue fuel rest3 with
              | some (v, rest4) =>
                match skipWs rest4 with
                | c3 :: rest5 =>
                  if c3 = ',' then
                    match parseMembers fuel rest5 with
                    | some (fields, rem) => some ((String.mk key, v) :: fields, rem)
                    | none => none
                  else if c3 = rbraceChar then some ([(String.mk key, v)], rest5)
                  else none
                | [] => none
              | none => none
            else none
          | [] => none
        | none => none
      else none
    | [] => none

/-- Parse one or more elements of a JSON array. -/
def parseElems : Nat → List Char → Option (List Json × List Char)
  | 0, _ => none
  | fuel + 1, cs =>
    match parseValue fuel cs with
    | some (v, rest) =>
      match skipWs rest with
      | c :: rest2 =>
        if c = ',' then
          match parseElems fuel rest2 with
          | some (elems, rem) => some (v :: elems, rem)
          | none => none
        else if c = ']' then some ([v], rest2)
        else none
      | [] => none
    | none => none

end

/-- Embedding of JavaScript `JSON.parse`: `none` models a thrown
`SyntaxError`. -/
def jsonParse (s : String) : Option Json :=
  let cs := s.data
  match parseValue (2 * cs.length + 4) cs with
  | some (j, rest) => if (skipWs rest).isEmpty then some j else none
  | none => none

/-! ## Article schema (`src/lib/core/schema.ts`) -/

/-- One section of an `ArticleOutput`. -/
structure ArticleSection where
  title : String
  paragraph : String
  bullets : List String
deriving DecidableEq, Repr

/-- A wrapper for the `{ text: string }` intro/conclusion objects. -/
structure ArticleText where
  text : String
deriving DecidableEq, Repr

/-- The article-style response contract (`ArticleOutput` in `schema.ts`). -/
structure ArticleOutput where
  intro : ArticleText
  sections : List ArticleSection
  conclusion : ArticleText
deriving DecidableEq, Repr

/-- Split a character list at the first occurrence of a pattern, returning
the part before the pattern and the part after it. -/
def splitAtPattern (pat : List Char) : List Char → Option (List Char × List Char)
  | [] => if pat.isPrefixOf ([] : List Char) then some ([], []) else none
  | c :: rest =>
    if pat.isPrefixOf (c :: rest) then some ([], (c :: rest).drop pat.length)
    else (splitAtPattern pat rest).map (fun p => (c :: p.1, p.2))

/-- The code-fence delimiter searched for by `parseArticleResponse`. -/
def fencePat : List Char := "```".data

/-- The code-block stripping in `parseArticleResponse`: trim the raw text
and, when a fenced block with matching delimiters occurs, replace the text
by the trimmed contents of the first such block.  This computes the first
match of the regular expression used in `schema.ts` (the lazy capture
surrounded by whitespace classes is exactly "contents of the first fenced
block, trimmed", with the optional `json` language tag consumed). -/
def stripCodeBlock (text : String) : String :=
  let t := jsTrim text
  match splitAtPattern fencePat t.data with
  | none => t
  | some (_, afterOpen) =>
    let afterLang := if ("json".data).isPrefixOf afterOpen then afterOpen.drop 4 else afterOpen
    match splitAtPattern fencePat afterLang with
    | none => t
    | some (mid, _) => jsTrim (String.mk mid)

/-- JavaScript property lookup on a parsed JSON value: on objects, the last
binding of a duplicated key wins (as in `JSON.parse`); on every other value
(including arrays, whose elements are not string-keyed) the lookup yields
`none`, modelling `undefined`. -/
def findField : List (String × Json) → String → Option Json
  | [], _ => none
  | (k, v) :: rest, key =>
    match findField rest key with
    | some r => some r
    | none => if k = key then some v else none

/-- Field access `value[key]` as used by `validateArticleSchema`. -/
def Json.getField : Json → String → Option Json
  | .obj fields, key => findField fields key
  | _, _ => none

/-- `value && typeof value === 'object'`: true exactly on JSON objects and
arrays (JSON has no other truthy values of type `object`). -/
def Json.isObjLike : Json → Bool
  | .obj _ => true
  | .arr _ => true
  | _ => false

/-- The `typeof section.bullets[j] === 'string'` loop of
`validateArticleSchema`, extracting the bullet strings. -/
def bulletsOf : List Json → Option (List String)
  | [] => some []
  | .str s :: rest => (bulletsOf rest).map (fun out => s :: out)
  | _ => none

/-- Extraction of `intro.text` / `conclusion.text` (`typeof x.text ===
'string'`). -/
def textFieldOf (j : Json) : Option String :=
  match j.getField "text" with
  | some (.str s) => some s
  | _ => none

/-- The per-section checks of `validateArticleSchema`, extracting the
section on success.  A section element on which property access itself
throws in JavaScript (e.g. `null`) also yields `none`; inside
`parseArticleResponse` both failure modes reach the same `catch`. -/
def sectionOf (j : Json) : Option ArticleSection :=
  match j.getField "title" with
  | some (.str title) =>
    match j.getField "paragraph" with
    | some (.str paragraph) =>
      match j.getField "bullets" with
      | some (.arr bs) => (bulletsOf bs).map (fun bullets => ⟨title, paragraph, bullets⟩)
      | _ => none
    | _ => none
  | _ => none

/-- The `sections` loop of `validateArticleSchema`. -/
def sectionsOf : List Json → Option (List ArticleSection)
  | [] => some []
  | j :: rest =>
    match sectionOf j with
    | some s => (sectionsOf rest).map (fun out => s :: out)
    | none => none

/-- `validateArticleSchema` followed by the `asserts obj is ArticleOutput`
cast: `some` exactly when the parsed JSON value passes every check of the
validator, in which case the typed article is returned. -/
def toArticleOutput (j : Json) : Option ArticleOutput :=
  if j.isObjLike = false then none
  else
    match j.getField "intro" with
    | none => none
    | some intro =>
      match textFieldOf intro with
      | none => none
      | some introText =>
        match j.getField "sections" with
        | some (.arr secs) =>
          match sectionsOf secs with
          | none => none
          | some sections =>
            match j.getField "conclusion" with
            | none => none
            | some concl =>
              match textFieldOf concl with
              | none => none
              | some conclText => some ⟨⟨introText⟩, sections, ⟨conclText⟩⟩
        | _ => none

/-- The bullets loop of `validateArticleSchema`, with its error message. -/
def validateBullets : List Json → Nat → Nat → Except String Unit
  | [], _, _ => .ok ()
  | b :: rest, i, jdx =>
    match b with
    | .str _ => validateBullets rest i (jdx + 1)
    | _ => .error ("sections[" ++ toString i ++ "].bullets[" ++ toString jdx ++ "] must be a string")

/-- The sections loop of `validateArticleSchema`, with its error messages. -/
def validateSectionsJ : List Json → Nat → Except String Unit
  | [], _ => .ok ()
  | s :: rest, i =>
    match s.getField "title" with
    | some (.str _) =>
      match s.getField "paragraph" with
      | some (.str _) =>
        match s.getField "bullets" with
        | some (.arr bs) =>
          match validateBullets bs i 0 with
          | .ok _ => validateSectionsJ rest (i + 1)
          | .error e => .error e
        | _ => .error ("sections[" ++ toString i ++ "].bullets must be an array")
      | _ => .error ("sections[" ++ toString i ++ "].paragraph must be a string")
    | _ => .error ("sections[" ++ toString i ++ "].title must be a string")

/-- Embedding of `validateArticleSchema(obj)`: `.error msg` models the
thrown `Error(msg)`. -/
def validateArticleSchema (j : Json) : Except String Unit :=
  if j.isObjLike = false then .error "Response must be a valid object"
  else
    match j.getField "intro" with
    | none => .error "Missing or invalid intro object"
    | some intro =>
      if intro.isObjLike = false then .error "Missing or invalid intro object"
      else
        match textFieldOf intro with
        | none => .error "intro.text must be a string"
        | some _ =>
          match j.getField "sections" with
          | some (.arr secs) =>
            match validateSectionsJ secs 0 with
            | .error e => .error e
            | .ok _ =>
              match j.getField "conclusion" with
              | none => .error "Missing or invalid conclusion object"
              | some concl =>
                if concl.isObjLike = false then .error "Missing or invalid conclusion object"
                else
                  match textFieldOf concl with
                  | none => .error "conclusion.text must be a string"
                  | some _ => .ok ()
          | _ => .error "sections must be an array"

/-- Canonical JSON encoding of a typed section. -/
def encodeSection (s : ArticleSection) : Json :=
  .obj [("title", .str s.title), ("paragraph", .str s.paragraph),
        ("bullets", .arr (s.bullets.map .str))]

/-- Canonical JSON encoding of a typed `ArticleOutput`. -/
def encodeArticle (a : ArticleOutput) : Json :=
  .obj [("intro", .obj [("text", .str a.intro.text)]),
        ("sections", .arr (a.sections.map encodeSection)),
        ("conclusion", .obj [("text", .str a.conclusion.text)])]

/-- The fallback `ArticleOutput` synthesized by `parseArticleResponse` on
any parse or validation failure. -/
def repairFallback (text : String) : ArticleOutput :=
  ⟨⟨strTake text 200⟩, [⟨"Response", text, []⟩], ⟨""⟩⟩

/-- Embedding of `parseArticleResponse(text)` from `schema.ts`. -/
def parseArticleResponse (text : String) : ArticleOutput :=
  let jsonStr := stripCodeBlock text
  match jsonParse jsonStr with
  | some parsed =>
    match toArticleOutput parsed with
    | some article => article
    | none => repairFallback text
  | none => repairFallback text

/-! ## Deterministic markdown renderer (`src/lib/core/render-markdown.ts`)

The renderer consumes typed `ArticleOutput` values, so the JavaScript
truthiness tests on its string fields reduce to non-emptiness, and the
`Array.isArray(data.sections)` guard is always true. -/

/-- The intro paragraph contribution of `renderMarkdown`. -/
def introMd (d : ArticleOutput) : String :=
  if d.intro.text = "" then "" else d.intro.text ++ "\n\n"

/-- The bullet-list contribution of one section. -/
def bulletsMd (bs : List String) : String :=
  String.join (bs.map (fun item => "- " ++ item ++ "\n"))

/-- The contribution of one section of `renderMarkdown`. -/
def sectionMd (s : ArticleSection) : String :=
  (if s.title = "" then "" else "## " ++ s.title ++ "\n\n")
    ++ (if s.paragraph = "" then "" else s.paragraph ++ "\n\n")
    ++ (if s.bullets.length > 0 then bulletsMd s.bullets ++ "\n" else "")

/-- The contribution of all sections of `renderMarkdown`. -/
def sectionsMd (d : ArticleOutput) : String :=
  String.join (d.sections.map sectionMd)

/-- The conclusion contribution of `renderMarkdown`: a `## Kesimpulan`
heading followed by the conclusion text, emitted only when the conclusion
text is truthy (non-empty). -/
def conclusionMd (d : ArticleOutput) : String :=
  if d.conclusion.text = "" then "" else "## Kesimpulan\n\n" ++ d.conclusion.text ++ "\n"

/-- Embedding of `renderMarkdown(data)` from `render-markdown.ts`. -/
def renderMarkdown (d : ArticleOutput) : String :=
  jsTrim (introMd d ++ sectionsMd d ++ conclusionMd d)

/-! ## Humanities document schema (`src/lib/rag/document-schema.ts`) -/

/-- The closed discipline enumeration. -/
inductive Discipline where
  | linguistics
  | literature
  | cultural_studies
deriving DecidableEq, Repr

/-- Historical era of a document. -/
inductive Era where
  | classical
  | modern
  | contemporary
deriving DecidableEq, Repr

/-- Epistemological stance of a document. -/
inductive Stance where
  | descriptive
  | prescriptive
  | critical
deriving DecidableEq, Repr

/-- Confidence level of a document or classification. -/
inductive Confidence where
  | high
  | medium
  | low
deriving DecidableEq, Repr

/-- Source type of a document. -/
inductive SourceType where
  | journal
  | book
  | ethnography
  | analysis
  | few_shot
deriving DecidableEq, Repr

/-- A humanities document.  Subfields are kept as strings: the TypeScript
`Subfield` union is a set of string literals and the retriever compares
them by string equality (`doc.subfield.includes(subfield as any)`). -/
structure HumanitiesDocument where
  id : String
  text : String
  discipline : List Discipline
  subfield : List String
  culture : List String
  context : List String
  era : Era
  stance : Stance
  confidence : Confidence
  source_type : SourceType
  source : String
  related_concepts : Option (List String)
  languages : Option (List String)
deriving DecidableEq, Repr

/-- The argument record of `createDocument`: required `id`, `text`,
`discipline`, `source`, everything else optional (`Partial`). -/
structure CreateDocArgs where
  id : String
  text : String
  discipline : List Discipline
  source : String
  subfield : Option (List String) := none
  culture : Option (List String) := none
  context : Option (List String) := none
  era : Option Era := none
  stance : Option Stance := none
  confidence : Option Confidence := none
  source_type : Option SourceType := none
  related_concepts : Option (List String) := none
  languages : Option (List String) := none

/-- Embedding of `createDocument(partial)`: spread the defaults, then the
supplied fields.  Note that it performs no validation. -/
def createDocument (a : CreateDocArgs) : HumanitiesDocument :=
  { id := a.id
    text := a.text
    discipline := a.discipline
    source := a.source
    subfield := a.subfield.getD []
    culture := a.culture.getD []
    context := a.context.getD []
    era := a.era.getD .contemporary
    stance := a.stance.getD .descriptive
    confidence := a.confidence.getD .medium
    source_type := a.source_type.getD .analysis
    related_concepts := a.related_concepts
    languages := a.languages }

/-- `VALID_DISCIPLINES` from `document-schema.ts`. -/
def VALID_DISCIPLINES : List Discipline := [.linguistics, .literature, .cultural_studies]

/-- `VALID_ERAS` from `document-schema.ts`. -/
def VALID_ERAS : List Era := [.classical, .modern, .contemporary]

/-- `VALID_STANCES` from `document-schema.ts`. -/
def VALID_STANCES : List Stance := [.descriptive, .prescriptive, .critical]

/-- `VALID_CONFIDENCES` from `document-schema.ts`. -/
def VALID_CONFIDENCES : List Confidence := [.high, .medium, .low]

/-- `VALID_SOURCE_TYPES` from `document-schema.ts`. -/
def VALID_SOURCE_TYPES : List SourceType := [.journal, .book, .ethnography, .analysis, .few_shot]

/-- Embedding of `validateHumanitiesDocument(doc)` on typed documents.
The `typeof`/`Array.isArray` tests are guaranteed by the typing; the
remaining runtime content is the non-emptiness of `id`, `text` and
`discipline` and the closed-vocabulary membership checks. -/
def validateHumanitiesDocument (d : HumanitiesDocument) : Except String Unit :=
  if d.id = "" then .error "Document must have a non-empty id"
  else if d.text = "" then .error "Document must have non-empty text"
  else if d.discipline.isEmpty then .error "Document must have at least one discipline"
  else if d.discipline.all (fun disc => VALID_DISCIPLINES.contains disc) = false then
    .error "Invalid discipline"
  else if VALID_ERAS.contains d.era = false then .error "Invalid era"
  else if VALID_STANCES.contains d.stance = false then .error "Invalid stance"
  else if VALID_CONFIDENCES.contains d.confidence = false then .error "Invalid confidence"
  else if VALID_SOURCE_TYPES.contains d.source_type = false then .error "Invalid source_type"
  else .ok ()

/-! ## Humanities intent (`src/lib/rag/query-builder.ts`) -/

/-- The query-type enumeration of `HumanitiesIntent`. -/
inductive QueryType where
  | translation
  | error_analysis
  | cultural_explanation
  | comparative
  | interpretive
  | general
deriving DecidableEq, Repr

/-- The structured intent descriptor produced by the intent classifier. -/
structure HumanitiesIntent where
  cultures_involved : List String
  potential_conflicts : List String
  primary_discipline : Discipline
  secondary_disciplines : List Discipline
  subfields : List String
  social_domain : String
  key_concepts : List String
  query_type : QueryType
  interpretive_frame : String
  requires_comparison : Bool
  requires_historical_context : Bool
  analysis_confidence : Confidence
deriving DecidableEq, Repr

/-- The heuristic culture detection of `createFallbackIntent`: scan the
lower-cased question for the fixed list of culture-name substrings,
collecting matches in the source order of the `if` statements. -/
def detectCultures (questionLower : String) : List String :=
  let inc := fun (pat : String) => strIncludes questionLower pat
  (if inc "indonesia" || inc "indonesian" then ["Indonesia"] else [])
    ++ (if inc "jawa" || inc "javanese" then ["Java"] else [])
    ++ (if inc "english" || inc "inggris" then ["English"] else [])
    ++ (if inc "china" || inc "chinese" || inc "mandarin" then ["Chinese"] else [])
    ++ (if inc "jepang" || inc "japan" then ["Japanese"] else [])
    ++ (if inc "barat" || inc "western" then ["Western"] else [])

/-- The `General` placeholder substitution of `createFallbackIntent`. -/
def ensureNonEmptyCultures (cultures : List String) : List String :=
  if cultures.isEmpty then ["General"] else cultures

/-- The heuristic discipline detection of `createFallbackIntent`: the
first matching branch wins; the default is linguistics with no subfields. -/
def detectDiscipline (questionLower : String) : Discipline × List String :=
  let inc := fun (pat : String) => strIncludes questionLower pat
  if inc "sastra" || inc "novel" || inc "puisi" || inc "literary" then
    (.literature, ["literary_criticism"])
  else if inc "budaya" || inc "culture" || inc "tradisi" || inc "norma" then
    (.cultural_studies, ["cultural_norms"])
  else if inc "sopan" || inc "polite" || inc "formal" || inc "bahasa" then
    (.linguistics, ["pragmatics", "sociolinguistics"])
  else (.linguistics, [])

/-- Embedding of `createFallbackIntent(question)` from `query-builder.ts`. -/
def createFallbackIntent (question : String) : HumanitiesIntent :=
  let questionLower := strToLower question
  let inc := fun (pat : String) => strIncludes questionLower pat
  let disciplineAndSubfields := detectDiscipline questionLower
  let subfields := disciplineAndSubfields.2
  let cultures := ensureNonEmptyCultures (detectCultures questionLower)
  let requiresComparison := cultures.length > 1 || inc "beda" || inc "differ" || inc "compare"
  { cultures_involved := cultures
    potential_conflicts := []
    primary_discipline := disciplineAndSubfields.1
    secondary_disciplines := []
    subfields := if subfields.length > 0 then subfields else ["pragmatics"]
    social_domain := "general communication"
    key_concepts := ((strSplitPred (fun c => c = ' ') question).filter (fun w => w.length > 4)).take 5
    query_type := if requiresComparison then .comparative else .cultural_explanation
    interpretive_frame := "General cultural-linguistic analysis"
    requires_comparison := requiresComparison
    requires_historical_context := false
    analysis_confidence := .low }

/-! ## Hybrid retriever (the humanities retriever module) -/

/-- Retrieval options; `minConfidence` and the filter lists are optional
as in the TypeScript `RetrievalOptions` interface. -/
structure RetrievalOptions where
  maxResults : Nat
  minConfidence : Option Confidence := none
  disciplines : Option (List Discipline) := none
  cultures : Option (List String) := none
  contexts : Option (List String) := none
  preferHighConfidence : Bool := true
  includeRelatedDisciplines : Bool := true
deriving Repr

/-- `DEFAULT_OPTIONS` of the retriever. -/
def DEFAULT_OPTIONS : RetrievalOptions :=
  { maxResults := 5
    minConfidence := some .low
    preferHighConfidence := true
    includeRelatedDisciplines := true }

namespace SCORING_WEIGHTS

/-! The additive weights of the source (`3.0`, `2.5`, `2.0`, `1.5`,
`1.0`) are stored in tenths, and the two multiplicative bonuses as their
numerators over the fixed denominators 2 (confidence: `1.5`, `1.0`,
`0.5`) and 10 (source type: `1.3`, `1.2`, `1.4`, `1.0`, `0.8`), so the
final score is the exact source value in units of 1/200. -/

/-- Weight of a primary-discipline match (`3.0`, in tenths). -/
def disciplineMatch : ℤ := 30

/-- Weight of a subfield match (`2.5`, in tenths). -/
def subfieldMatch : ℤ := 25

/-- Weight of a culture match (`2.0`, in tenths). -/
def cultureMatch : ℤ := 20

/-- Weight of a context match (`1.5`, in tenths). -/
def contextMatch : ℤ := 15

/-- Weight of a key-concept match (`1.0`, in tenths). -/
def conceptMatch : ℤ := 10

/-- The multiplicative confidence bonus (`1.5`, `1.0`, `0.5`), as its
numerator over the fixed denominator 2. -/
def confidenceBonus : Confidence → ℤ
  | .high => 3
  | .medium => 2
  | .low => 1

/-- The multiplicative source-type bonus (`1.3`, `1.2`, `1.4`, `1.0`,
`0.8`), as its numerator over the fixed denominator 10. -/
def sourceTypeBonus : SourceType → ℤ
  | .journal => 13
  | .book => 12
  | .ethnography => 14
  | .analysis => 10
  | .few_shot => 8

end SCORING_WEIGHTS

/-- Embedding of `calculateRelevanceScore(doc, query, intent, opts)`.
Each `for` loop of the source is a `foldl` over the same list with the
same per-element conditional increment, applied in source order.  The
result is the exact score in units of 1/200: additive increments are in
tenths (`* 0.5` of the source becomes `/ 2`, exact on the even weights;
the `0.3` lexical increment is `3` tenths), and the two multiplicative
bonuses contribute their numerators, with the skipped confidence bonus
contributing the neutral numerator `2` (= `1.0 × 2`) to keep the scale
fixed. -/
def calculateRelevanceScore (doc : HumanitiesDocument) (query : String)
    (intent : HumanitiesIntent) (opts : RetrievalOptions) : ℤ :=
  let queryLower := strToLower query
  -- 1. Discipline match
  let s1 : ℤ :=
    if doc.discipline.contains intent.primary_discipline then SCORING_WEIGHTS.disciplineMatch
    else 0
  let s2 : ℤ :=
    if opts.includeRelatedDisciplines then
      intent.secondary_disciplines.foldl
        (fun s disc =>
          if doc.discipline.contains disc then s + SCORING_WEIGHTS.disciplineMatch / 2
          else s) s1
    else s1
  -- 2. Subfield match
  let s3 : ℤ :=
    intent.subfields.foldl
      (fun s sf => if doc.subfield.contains sf then s + SCORING_WEIGHTS.subfieldMatch else s) s2
  -- 3. Culture match
  let s4 : ℤ :=
    intent.cultures_involved.foldl
      (fun s cu =>
        if doc.culture.any (fun c => strIncludes (strToLower c) (strToLower cu)) then
          s + SCORING_WEIGHTS.cultureMatch
        else s) s3
  -- 4. Context match (if specified)
  let s5 : ℤ :=
    match opts.contexts with
    | some ctxs =>
      if ctxs.length > 0 then
        ctxs.foldl
          (fun s cx => if doc.context.contains cx then s + SCORING_WEIGHTS.contextMatch else s) s4
      else s4
    | none => s4
  -- 5. Keyword/concept match
  let s6 : ℤ :=
    intent.key_concepts.foldl
      (fun s concept =>
        let conceptLower := strToLower concept
        let sText := if strIncludes (strToLower doc.text) conceptLower then
            s + SCORING_WEIGHTS.conceptMatch
          else s
        if (doc.related_concepts.getD []).any
            (fun rc => strIncludes (strToLower rc) conceptLower) then
          sText + SCORING_WEIGHTS.conceptMatch / 2
        else sText) s5
  -- 6. Query text match (semantic approximation): `+ 0.3` per word
  let queryWords := (strSplitPred Char.isWhitespace queryLower).filter (fun w => w.length > 3)
  let s7 : ℤ :=
    queryWords.foldl
      (fun s w => if strIncludes (strToLower doc.text) w then s + 3 else s) s6
  -- 7. Confidence bonus (numerator over 2; neutral numerator when skipped)
  let s8 : ℤ :=
    if opts.preferHighConfidence then s7 * SCORING_WEIGHTS.confidenceBonus doc.confidence
    else s7 * 2
  -- 8. Source type bonus (numerator over 10)
  s8 * SCORING_WEIGHTS.sourceTypeBonus doc.source_type

/-- A `(document, score)` pair, as built by `hybridRetrieve`. -/
structure Scored where
  doc : HumanitiesDocument
  score : ℤ
deriving DecidableEq, Repr

/-- `Math.ceil(maxResults / 2)`, the per-discipline and per-culture cap of
the diversification pass. -/
def ceilHalf (maxResults : Nat) : Nat := (maxResults + 1) / 2

/-- The main admission loop of `diversifyResults`.  The JavaScript
`Record<string, number>` count maps are modelled as total functions
defaulting to `0` (matching `counts[k] || 0`); the map keys
`doc.discipline[0]` and `doc.culture[0]` are `Option`-valued because the
JavaScript index expression may be `undefined`. -/
def diversifyPass (intent : HumanitiesIntent) (maxResults : Nat) :
    List Scored → List Scored → (Option Discipline → Nat) → (Option String → Nat) → List Scored
  | [], acc, _, _ => acc
  | item :: rest, acc, dCounts, cCounts =>
    if acc.length ≥ maxResults then acc
    else
      let primaryDisc := item.doc.discipline.head?
      if dCounts primaryDisc ≥ ceilHalf maxResults then
        diversifyPass intent maxResults rest acc dCounts cCounts
      else if intent.requires_comparison then
        let primaryCulture := item.doc.culture.head?
        if cCounts primaryCulture ≥ ceilHalf maxResults then
          diversifyPass intent maxResults rest acc dCounts cCounts
        else
          diversifyPass intent maxResults rest (acc ++ [item])
            (fun k => if k = primaryDisc then dCounts k + 1 else dCounts k)
            (fun k => if k = primaryCulture then cCounts k + 1 else cCounts k)
      else
        diversifyPass intent maxResults rest (acc ++ [item])
          (fun k => if k = primaryDisc then dCounts k + 1 else dCounts k)
          cCounts

/-- The "fill remaining slots" loop of `diversifyResults`.  JavaScript
`result.includes(item)` compares by object identity; structural equality
coincides with it whenever the scored documents are pairwise distinct
values, which holds for every input considered in the theorems below. -/
def backfill (maxResults : Nat) : List Scored → List Scored → List Scored
  | [], acc => acc
  | item :: rest, acc =>
    if acc.length ≥ maxResults then acc
    else if item ∈ acc then backfill maxResults rest acc
    else backfill maxResults rest (acc ++ [item])

/-- Embedding of `diversifyResults(scored, intent, maxResults)`. -/
def diversifyResults (scored : List Scored) (intent : HumanitiesIntent)
    (maxResults : Nat) : List Scored :=
  let result := diversifyPass intent maxResults scored [] (fun _ => 0) (fun _ => 0)
  if result.length < maxResults then backfill maxResults scored result else result

/-- The score/confidence filter of `hybridRetrieve` (step 2). -/
def keepScored (opts : RetrievalOptions) (s : Scored) : Bool :=
  if s.score ≤ 0 then false
  else if opts.minConfidence = some .high ∧ s.doc.confidence ≠ .high then false
  else if opts.minConfidence = some .medium ∧ s.doc.confidence = .low then false
  else true

/-- Stable insertion of an element into a list sorted by descending score:
the element goes after every earlier element of greater-or-equal score. -/
def insertByScoreDesc (x : Scored) : List Scored → List Scored
  | [] => [x]
  | y :: ys => if x.score ≤ y.score then y :: insertByScoreDesc x ys else x :: y :: ys

/-- The sort of `hybridRetrieve` (step 3): a stable sort by descending
score, the behavior ECMAScript specifies for
`filtered.sort((a, b) => b.score - a.score)`. -/
def sortByScoreDesc (l : List Scored) : List Scored :=
  l.foldl (fun acc x => insertByScoreDesc x acc) []

/-- Steps 1–3 of `hybridRetrieve`: score every document of the store,
filter by score and minimum confidence, and sort by descending score. -/
def retrieveCandidates (kb : List HumanitiesDocument) (query : String)
    (intent : HumanitiesIntent) (opts : RetrievalOptions) : List Scored :=
  let scoredDocs := kb.map (fun doc => Scored.mk doc (calculateRelevanceScore doc query intent opts))
  let filtered := scoredDocs.filter (keepScored opts)
  sortByScoreDesc filtered

/-- Embedding of `hybridRetrieve(query, intent, options)`.  The knowledge
base collection the source reads from a module-level constant is passed
explicitly as `kb` (`hybridRetrieve` never mutates it), and `opts` is the
result of the `{...DEFAULT_OPTIONS, ...options}` merge. -/
def hybridRetrieve (kb : List HumanitiesDocument) (query : String)
    (intent : HumanitiesIntent) (opts : RetrievalOptions) : List HumanitiesDocument :=
  let diversified := diversifyResults (retrieveCandidates kb query intent opts) intent opts.maxResults
  diversified.map (fun s => s.doc)

/-! ## The audit stage of the humanities pipeline -/

/-- Embedding of stage 5 of `humanitiesPipeline` (the reviewer/auditor).
`auditCall` is the outcome of the external `callLLM` invocation:
`.error e` models a thrown error (the `catch` keeps the pre-audit
article), `.ok text` models returned raw text, which the stage feeds to
`parseArticleResponse` and assigns to the article unconditionally —
`parseArticleResponse` is total and never throws. -/
def auditStage (auditCall : Except String String) (articleOutput : ArticleOutput) :
    ArticleOutput :=
  match auditCall with
  | .error _ => articleOutput
  | .ok auditedResponse => parseArticleResponse auditedResponse

/-! ## The knowledge base (`src/lib/rag/knowledge-base.ts`) -/

/-- The linguistics/pragmatics seed documents. -/
def PRAGMATICS_DOCS : List HumanitiesDocument := [
  createDocument
    { id := "prag-politeness-indo-01"
      text := "In Indonesian academic contexts, indirectness functions as a politeness strategy to maintain hierarchical harmony. Direct requests are often perceived as face-threatening, particularly when directed at superiors. The use of hedging expressions like \"mungkin\" (perhaps) or \"kalau boleh\" (if I may) serves to soften illocutionary force while preserving the addressee\x27s negative face."
      discipline := [.linguistics, .cultural_studies]
      source := "Journal of Pragmatics"
      subfield := some ["pragmatics", "cultural_norms"]
      culture := some ["Indonesia"]
      context := some ["academic", "formal"]
      era := some .contemporary
      stance := some .descriptive
      confidence := some .high
      source_type := some .journal
      related_concepts := some ["politeness", "indirectness", "face-threatening acts", "hedging"]
      languages := some ["Indonesian", "English"] },
  createDocument
    { id := "prag-silence-asian-01"
      text := "Silence in East Asian communicative contexts carries distinct pragmatic functions that differ fundamentally from Western interpretations. In Japanese, Chinese, and Korean discourse, pauses and silence during conversation often signal respect, contemplation, or deference rather than discomfort or incomprehension. This reflects cultural values that prioritize collective harmony (wa in Japanese) over individual expression."
      discipline := [.linguistics, .cultural_studies]
      source := "Cross-Cultural Pragmatics"
      subfield := some ["pragmatics", "cultural_norms"]
      culture := some ["Japan", "China", "Korea", "East Asia"]
      context := some ["general", "formal"]
      era := some .contemporary
      stance := some .descriptive
      confidence := some .high
      source_type := some .ethnography
      related_concepts := some ["silence", "pragmatics", "respect", "harmony", "wa"]
      languages := some ["Japanese", "Chinese", "Korean"] },
  createDocument
    { id := "prag-speech-acts-01"
      text := "Speech act theory demonstrates that utterances perform actions beyond conveying information. In collectivist cultures, the illocutionary force of speech acts is often negotiated through context, relationship, and implicit understanding rather than explicit linguistic markers. What appears as a \"question\" may function as a request, and what seems like a \"statement\" may constitute an indirect refusal."
      discipline := [.linguistics]
      source := "Austin, J.L. - How to Do Things with Words"
      subfield := some ["pragmatics", "discourse_analysis"]
      culture := some ["General", "Collectivist"]
      context := some ["general"]
      era := some .contemporary
      stance := some .descriptive
      confidence := some .high
      source_type := some .book
      related_concepts := some ["speech acts", "illocutionary force", "indirect speech acts"]
      languages := some ["General"] },
  createDocument
    { id := "prag-fta-indonesian-01"
      text := "Face-threatening acts (FTAs) in Indonesian discourse are managed through elaborate politeness strategies. The concept of \"sungkan\" (social reluctance/deference) governs interactions where speakers avoid imposing on others. Refusals are typically indirect, often taking the form of acceptance with conditions that effectively constitute a polite decline."
      discipline := [.linguistics, .cultural_studies]
      source := "Indonesian Pragmatics Studies"
      subfield := some ["pragmatics", "cultural_norms"]
      culture := some ["Indonesia", "Java"]
      context := some ["social", "formal"]
      era := some .contemporary
      stance := some .descriptive
      confidence := some .high
      source_type := some .journal
      related_concepts := some ["face-threatening acts", "sungkan", "politeness", "refusal strategies"]
      languages := some ["Indonesian", "Javanese"] }]

/-- The sociolinguistics seed documents. -/
def SOCIOLINGUISTICS_DOCS : List HumanitiesDocument := [
  createDocument
    { id := "socio-register-indo-01"
      text := "Register variation in Indonesian reflects social hierarchies and situational formality. The distinction between \"aku/kamu\" (informal) and \"saya/Anda\" (formal) pronouns indicates not merely politeness but social positioning. In Javanese-influenced Indonesian, the choice of register signals respect for age, status, and social distance, with inappropriate register selection potentially causing significant social offense."
      discipline := [.linguistics]
      source := "Sociolinguistics in Southeast Asia"
      subfield := some ["sociolinguistics", "pragmatics"]
      culture := some ["Indonesia", "Java"]
      context := some ["general"]
      era := some .contemporary
      stance := some .descriptive
      confidence := some .high
      source_type := some .journal
      related_concepts := some ["register", "pronouns", "formality", "social hierarchy"]
      languages := some ["Indonesian", "Javanese"] },
  createDocument
    { id := "socio-codeswitching-01"
      text := "Code-switching among multilingual speakers serves identity negotiation functions beyond mere linguistic convenience. In postcolonial contexts, switching between colonial languages (English, Dutch) and local languages signals educational background, social aspirations, and group membership. The choice to code-switch is often a strategic performance of hybrid identity."
      discipline := [.linguistics, .cultural_studies]
      source := "Code-Switching in Postcolonial Contexts"
      subfield := some ["sociolinguistics", "identity_studies"]
      culture := some ["Postcolonial", "Multilingual"]
      context := some ["general"]
      era := some .contemporary
      stance := some .descriptive
      confidence := some .high
      source_type := some .book
      related_concepts := some ["code-switching", "identity", "multilingualism", "postcolonial"]
      languages := some ["General"] },
  createDocument
    { id := "socio-power-language-01"
      text := "Language and power are inextricably linked in social interaction. The use of honorifics, formal registers, and deferential speech patterns reflects and reinforces power asymmetries. In hierarchical societies, the linguistic subordinate must employ elaborate politeness strategies while the socially superior speaker may use direct, unmarked forms. This asymmetry perpetuates social structures through everyday discourse."
      discipline := [.linguistics, .cultural_studies]
      source := "Language and Power - Fairclough"
      subfield := some ["sociolinguistics", "power_relations"]
      culture := some ["General", "Hierarchical"]
      context := some ["general", "institutional"]
      era := some .contemporary
      stance := some .critical
      confidence := some .high
      source_type := some .book
      related_concepts := some ["power", "honorifics", "hierarchy", "discourse"]
      languages := some ["General"] }]

/-- The cultural-studies seed documents. -/
def CULTURAL_STUDIES_DOCS : List HumanitiesDocument := [
  createDocument
    { id := "cult-collectivism-01"
      text := "Collectivist cultural orientations fundamentally shape communicative expectations. In societies emphasizing group harmony over individual expression, direct confrontation is typically avoided, consensus-building is valued, and personal opinions are often framed as group perspectives. This orientation influences everything from turn-taking patterns to acceptable topics of discourse."
      discipline := [.cultural_studies]
      source := "Hofstede Cultural Dimensions Research"
      subfield := some ["cultural_norms", "ethnography"]
      culture := some ["East Asia", "Southeast Asia", "Collectivist"]
      context := some ["general"]
      era := some .contemporary
      stance := some .descriptive
      confidence := some .high
      source_type := some .ethnography
      related_concepts := some ["collectivism", "harmony", "group identity", "indirect communication"] },
  createDocument
    { id := "cult-personal-questions-indo-01"
      text := "The asking of personal questions (about marriage, salary, age) in Indonesian and many Asian contexts functions as a social bonding ritual rather than an invasion of privacy. Questions like \"Sudah menikah?\" (Are you married?) signal care and social investment. This practice reflects communal identity orientation where personal status is considered community concern rather than private matter."
      discipline := [.cultural_studies, .linguistics]
      source := "Indonesian Social Norms Studies"
      subfield := some ["cultural_norms", "pragmatics"]
      culture := some ["Indonesia", "Asia"]
      context := some ["social", "casual"]
      era := some .contemporary
      stance := some .descriptive
      confidence := some .high
      source_type := some .ethnography
      related_concepts := some ["personal questions", "social bonding", "privacy", "communal identity"]
      languages := some ["Indonesian"] },
  createDocument
    { id := "cult-diaspora-identity-01"
      text := "Diaspora communities navigate complex hybrid identities through language. Second-generation immigrants often experience linguistic insecurity in both heritage and dominant languages, leading to unique forms of cultural negotiation. Code-switching, heritage language maintenance, and accent modification become sites of identity performance and cultural belonging."
      discipline := [.cultural_studies, .linguistics]
      source := "Journal of Multilingual and Multicultural Development"
      subfield := some ["diaspora_studies", "identity_studies", "sociolinguistics"]
      culture := some ["Diaspora", "Immigrant"]
      context := some ["general"]
      era := some .contemporary
      stance := some .descriptive
      confidence := some .medium
      source_type := some .journal
      related_concepts := some ["diaspora", "hybrid identity", "heritage language", "belonging"] },
  createDocument
    { id := "cult-postcolonial-language-01"
      text := "Postcolonial language dynamics reveal ongoing tensions between colonial linguistic legacies and indigenous language revitalization. In many former colonies, the colonial language retains prestige in education and government while local languages are associated with authenticity and tradition. Speakers must navigate these competing symbolic meanings in daily linguistic choices."
      discipline := [.cultural_studies, .linguistics]
      source := "Postcolonial Linguistics"
      subfield := some ["postcolonial_studies", "sociolinguistics"]
      culture := some ["Postcolonial", "Indonesia", "India", "Africa"]
      context := some ["general", "institutional"]
      era := some .contemporary
      stance := some .critical
      confidence := some .high
      source_type := some .book
      related_concepts := some ["postcolonialism", "language prestige", "linguistic imperialism"] }]

/-- The literature seed documents. -/
def LITERATURE_DOCS : List HumanitiesDocument := [
  createDocument
    { id := "lit-symbolism-cultural-01"
      text := "Literary symbols carry culturally specific meanings that resist direct translation. The lotus flower symbolizes purity in Buddhist contexts, while the cherry blossom represents ephemeral beauty in Japanese aesthetics. Literary analysis must account for these cultural symbolic systems rather than imposing universal interpretive frameworks."
      discipline := [.literature, .cultural_studies]
      source := "Comparative Literature Studies"
      subfield := some ["symbolism", "comparative_literature"]
      culture := some ["Buddhist", "Japanese", "Asian"]
      context := some ["literary"]
      era := some .contemporary
      stance := some .descriptive
      confidence := some .high
      source_type := some .analysis
      related_concepts := some ["symbolism", "cultural symbols", "translation", "interpretation"] },
  createDocument
    { id := "lit-postcolonial-writing-01"
      text := "Postcolonial literature engages in acts of linguistic resistance through appropriation and subversion of colonial languages. Writers like Chinua Achebe and Pramoedya Ananta Toer deliberately infuse colonial languages with indigenous rhythms, idioms, and worldviews, creating hybrid literary forms that challenge linguistic hegemony while reaching global audiences."
      discipline := [.literature, .cultural_studies]
      source := "The Empire Writes Back"
      subfield := some ["postcolonial_literature", "postcolonial_studies"]
      culture := some ["Postcolonial", "Nigeria", "Indonesia"]
      context := some ["literary"]
      era := some .contemporary
      stance := some .critical
      confidence := some .high
      source_type := some .book
      related_concepts := some ["postcolonial literature", "linguistic resistance", "hybridity"]
      languages := some ["English", "Indonesian"] }]

/-- The discourse-analysis seed documents. -/
def DISCOURSE_DOCS : List HumanitiesDocument := [
  createDocument
    { id := "disc-turn-taking-01"
      text := "Turn-taking patterns in conversation vary significantly across cultures. In some cultures, overlapping speech signals engagement and enthusiasm, while in others it constitutes an interruption and face-threat. Pause length between turns also carries cultural meaning: extended pauses may signal thoughtfulness in some contexts or awkwardness in others."
      discipline := [.linguistics]
      source := "Conversation Analysis"
      subfield := some ["discourse_analysis", "pragmatics"]
      culture := some ["General", "Cross-cultural"]
      context := some ["general", "conversation"]
      era := some .contemporary
      stance := some .descriptive
      confidence := some .high
      source_type := some .journal
      related_concepts := some ["turn-taking", "overlap", "pause", "conversation"] },
  createDocument
    { id := "disc-politeness-western-01"
      text := "Western politeness theories, while influential, have been critiqued for cultural bias toward individual-focused face-work. Brown and Levinson\x27s model assumes universal concern for autonomy (negative face) that may not apply in collectivist cultures where group face and relational harmony take precedence over individual territory."
      discipline := [.linguistics]
      source := "Critique of Politeness Theory"
      subfield := some ["pragmatics", "discourse_analysis"]
      culture := some ["Western", "General"]
      context := some ["academic"]
      era := some .contemporary
      stance := some .critical
      confidence := some .high
      source_type := some .journal
      related_concepts := some ["politeness", "face", "negative face", "cultural bias"] }]

/-- The combined knowledge base exported by `knowledge-base.ts`. -/
def HUMANITIES_KNOWLEDGE_BASE : List HumanitiesDocument :=
  PRAGMATICS_DOCS ++ SOCIOLINGUISTICS_DOCS ++ CULTURAL_STUDIES_DOCS
    ++ LITERATURE_DOCS ++ DISCOURSE_DOCS

/-! ## Observation functions and concrete inputs used by the theorems -/

/-- Number of scored documents whose primary discipline
(`doc.discipline[0]`) is `k`. -/
def scoredCountDisc (k : Option Discipline) (l : List Scored) : Nat :=
  (l.filter (fun s => decide (s.doc.discipline.head? = k))).length

/-- Number of scored documents whose primary culture (`doc.culture[0]`)
is `k`. -/
def scoredCountCult (k : Option String) (l : List Scored) : Nat :=
  (l.filter (fun s => decide (s.doc.culture.head? = k))).length

/-- Number of documents in a retrieval result whose primary discipline is
`k`. -/
def countPrimaryDiscipline (k : Option Discipline) (docs : List HumanitiesDocument) : Nat :=
  (docs.filter (fun d => decide (d.discipline.head? = k))).length

/-- Number of documents in a retrieval result whose primary culture is
`k`. -/
def countPrimaryCulture (k : Option String) (docs : List HumanitiesDocument) : Nat :=
  (docs.filter (fun d => decide (d.culture.head? = k))).length

/-- A neutral intent used to build concrete retrieval scenarios. -/
def neutralIntent : HumanitiesIntent :=
  { cultures_involved := []
    potential_conflicts := []
    primary_discipline := .linguistics
    secondary_disciplines := []
    subfields := []
    social_domain := ""
    key_concepts := []
    query_type := .general
    interpretive_frame := ""
    requires_comparison := false
    requires_historical_context := false
    analysis_confidence := .low }

/-- A minimal synthetic document for concrete retrieval scenarios. -/
def mkTestDoc (i t : String) (ds : List Discipline) (cult : List String)
    (cf : Confidence) : HumanitiesDocument :=
  { id := i
    text := t
    discipline := ds
    subfield := []
    culture := cult
    context := []
    era := .contemporary
    stance := .descriptive
    confidence := cf
    source_type := .analysis
    source := "synthetic"
    related_concepts := none
    languages := none }

/-- A document pool with four positively scoring documents over two
distinct primary disciplines (three linguistics, one literature), with
strictly decreasing scores for the query `"politeness"`. -/
def diversifyCexKb : List HumanitiesDocument :=
  [ mkTestDoc "d1" "politeness one" [.linguistics] [] .high,
    mkTestDoc "d2" "politeness two" [.linguistics] [] .medium,
    mkTestDoc "d3" "politeness three" [.linguistics] [] .low,
    mkTestDoc "d4" "politeness four" [.literature] [] .high ]

/-- Options requesting four results with no confidence floor. -/
def diversifyCexOpts : RetrievalOptions :=
  { maxResults := 4
    minConfidence := none
    preferHighConfidence := true
    includeRelatedDisciplines := true }

/-- A pool of two positively scoring documents over two disciplines and
two cultures, for which the diversification pass fills every slot. -/
def diversifyWitKb : List HumanitiesDocument :=
  [ mkTestDoc "w1" "delta alpha" [.linguistics] ["X"] .medium,
    mkTestDoc "w2" "delta beta" [.literature] ["Y"] .medium ]

/-- A comparison-requiring intent for the two-document pool. -/
def diversifyWitIntent : HumanitiesIntent :=
  { neutralIntent with requires_comparison := true }

/-- Options requesting two results with no confidence floor. -/
def diversifyWitOpts : RetrievalOptions :=
  { maxResults := 2
    minConfidence := none
    preferHighConfidence := true
    includeRelatedDisciplines := true }

/-- The example question of the specification scenario (its apostrophes
are written with character escapes). -/
def exampleQuestion : String :=
  "Why does \x27Sudah menikah?\x27 sound polite in Indonesian but intrusive in English?"

/-- A concrete pre-audit article. -/
def preAuditArticle : ArticleOutput :=
  ⟨⟨"A well-grounded introduction."⟩,
   [⟨"Analysis", "The pre-audit analysis.", []⟩],
   ⟨"A pre-audit conclusion."⟩⟩

/-- Arguments building a document that violates the document invariant
(no discipline tags). -/
def badDocArgs : CreateDocArgs :=
  { id := "bad-doc"
    text := "A document with no discipline tags."
    discipline := []
    source := "synthetic" }

/-- An article with an empty conclusion whose only section happens to be
titled `Kesimpulan`. -/
def kesimpulanArticle : ArticleOutput :=
  ⟨⟨""⟩, [⟨"Kesimpulan", "A section that reuses the conclusion heading.", []⟩], ⟨""⟩⟩

/-! ## Supporting lemmas -/

/-- The canonical encoding of a section exposes its `title` field. -/
theorem encodeSection_title (s : ArticleSection) :
    (encodeSection s).getField "title" = some (.str s.title) := rfl

/-- The canonical encoding of a section exposes its `paragraph` field. -/
theorem encodeSection_paragraph (s : ArticleSection) :
    (encodeSection s).getField "paragraph" = some (.str s.paragraph) := rfl

/-- The canonical encoding of a section exposes its `bullets` field. -/
theorem encodeSection_bullets (s : ArticleSection) :
    (encodeSection s).getField "bullets" = some (.arr (s.bullets.map .str)) := rfl

/-- Encoded bullet lists pass the bullets loop of the validator. -/
theorem validateBullets_map_str (bs : List String) (i j : Nat) :
    validateBullets (bs.map Json.str) i j = .ok () := by
  induction bs generalizing j with
  | nil => rfl
  | cons b rest ih =>
    simp only [List.map_cons, validateBullets]
    exact ih (j + 1)

/-- Encoded section lists pass the sections loop of the validator. -/
theorem validateSectionsJ_map (l : List ArticleSection) (i : Nat) :
    validateSectionsJ (l.map encodeSection) i = .ok () := by
  induction l generalizing i with
  | nil => rfl
  | cons s rest ih =>
    simp only [List.map_cons, validateSectionsJ, encodeSection_title,
      encodeSection_paragraph, encodeSection_bullets, validateBullets_map_str]
    exact ih (i + 1)

/-- Every typed `ArticleOutput`, canonically encoded, passes
`validateArticleSchema`. -/
theorem encode_validate_ok (a : ArticleOutput) :
    validateArticleSchema (encodeArticle a) = .ok () := by
  have hintro : (encodeArticle a).getField "intro"
      = some (.obj [("text", .str a.intro.text)]) := rfl
  have hsections : (encodeArticle a).getField "sections"
      = some (.arr (a.sections.map encodeSection)) := rfl
  have hconcl : (encodeArticle a).getField "conclusion"
      = some (.obj [("text", .str a.conclusion.text)]) := rfl
  simp only [validateArticleSchema, hintro, hsections, hconcl, validateSectionsJ_map]
  rfl

/-! ## Claims about the schema validator and repair -/

/-- C1: for every input string `rawText` (including the empty string and
non-JSON garbage), `parseArticleResponse rawText` returns a structurally
valid `ArticleOutput` — its canonical JSON encoding passes every check of
`validateArticleSchema` — and, being a total function into
`ArticleOutput`, it never throws. -/
theorem parseArticleResponse_total_and_valid (rawText : String) :
    validateArticleSchema (encodeArticle (parseArticleResponse rawText)) = .ok () :=
  encode_validate_ok (parseArticleResponse rawText)

/-- C2: whenever JSON parsing of the (fence-stripped) input fails, or the
parsed value fails schema validation, `parseArticleResponse` returns
exactly the fallback article: intro = first 200 characters of the raw
input, a single section titled `Response` holding the full raw input with
no bullets, and an empty conclusion. -/
theorem parseArticleResponse_fallback (rawText : String)
    (h : ∀ j, jsonParse (stripCodeBlock rawText) = some j → toArticleOutput j = none) :
    parseArticleResponse rawText =
      ⟨⟨strTake rawText 200⟩, [⟨"Response", rawText, []⟩], ⟨""⟩⟩ := by
  simp only [parseArticleResponse]
  cases hj : jsonParse (stripCodeBlock rawText) with
  | none => rfl
  | some j =>
    have hv := h j hj
    simp only [hv]
    rfl

/-- Witness for C2: on the input `"not json at all"` the fallback article
is returned, with the single section paragraph equal to the raw input and
an empty conclusion. -/
theorem parseArticleResponse_fallback_witness :
    parseArticleResponse "not json at all" =
      ⟨⟨"not json at all"⟩, [⟨"Response", "not json at all", []⟩], ⟨""⟩⟩ := by
  have hnone : jsonParse (stripCodeBlock "not json at all") = none :=
    Option.isNone_iff_eq_none.mp (by decide)
  have h := parseArticleResponse_fallback "not json at all"
    (fun j hj => by rw [hnone] at hj; exact Option.noConfusion hj)
  rw [h]
  decide

/-! ## Claims about the renderer -/

/-- Appending the empty string is the identity. -/
theorem string_append_empty (s : String) : s ++ "" = s := by
  cases s with
  | mk data => exact congrArg String.mk (List.append_nil data)

/-- C10 counterexample: an `ArticleOutput` with an empty conclusion whose
only section is titled `Kesimpulan` renders to output that does contain a
`## Kesimpulan` heading, refuting the claim as stated. -/
theorem renderMarkdown_kesimpulan_heading_cex :
    kesimpulanArticle.conclusion.text = ""
    ∧ strIncludes (renderMarkdown kesimpulanArticle) "## Kesimpulan" = true :=
  ⟨rfl, by decide⟩

/-- C10 (amended): for every `ArticleOutput` whose conclusion text is
empty, the conclusion branch of `renderMarkdown` contributes nothing: the
output is exactly the trimmed concatenation of the intro and section
blocks, with no conclusion block. -/
theorem renderMarkdown_empty_conclusion (d : ArticleOutput) (h : d.conclusion.text = "") :
    conclusionMd d = "" ∧ renderMarkdown d = jsTrim (introMd d ++ sectionsMd d) := by
  have hc : conclusionMd d = "" := by simp [conclusionMd, h]
  exact ⟨hc, by simp [renderMarkdown, hc, string_append_empty]⟩

/-- Witness for C10 (amended): the fallback article synthesized by schema
repair renders without any conclusion block. -/
theorem renderMarkdown_empty_conclusion_witness :
    conclusionMd (repairFallback "garbage") = ""
    ∧ renderMarkdown (repairFallback "garbage")
        = jsTrim (introMd (repairFallback "garbage") ++ sectionsMd (repairFallback "garbage")) :=
  renderMarkdown_empty_conclusion (repairFallback "garbage") rfl

/-! ## Claim about the audit stage -/

/-- C4 is refuted by the code: when the audit call returns text that fails
JSON parsing, the audit stage does not keep the pre-audit article — it
replaces it with the fallback article synthesized from the malformed audit
output.  (The `catch` of the stage only fires when the call itself throws;
`parseArticleResponse` never throws.) -/
theorem auditStage_invalid_output_replaces_article :
    auditStage (Except.ok "not json at all") preAuditArticle = repairFallback "not json at all"
    ∧ auditStage (Except.ok "not json at all") preAuditArticle ≠ preAuditArticle := by
  constructor
  · show parseArticleResponse "not json at all" = repairFallback "not json at all"
    decide
  · decide

/-! ## Claims about the fallback intent classifier -/

/-- Every discipline value is in the closed enumeration. -/
theorem discipline_mem_valid (d : Discipline) : d ∈ VALID_DISCIPLINES := by
  cases d <;> simp [VALID_DISCIPLINES]

/-- The `General` substitution yields a non-empty list. -/
theorem ensureNonEmptyCultures_ne_nil (l : List String) : ensureNonEmptyCultures l ≠ [] := by
  cases l <;> simp [ensureNonEmptyCultures]

/-- C5: for every input question (including the empty string), the
heuristic fallback classifier returns an intent with non-empty
`cultures_involved` (the `General` placeholder is substituted when no
culture substring matches) and a `primary_discipline` in the closed
discipline enumeration. -/
theorem createFallbackIntent_total (question : String) :
    (createFallbackIntent question).cultures_involved ≠ []
    ∧ (createFallbackIntent question).primary_discipline ∈ VALID_DISCIPLINES := by
  constructor
  · show ensureNonEmptyCultures (detectCultures (strToLower question)) ≠ []
    exact ensureNonEmptyCultures_ne_nil _
  · exact discipline_mem_valid _

/-- C6 counterexample: on the exact example question the fallback
classifier detects the substrings `indonesian` and `english`, so
`cultures_involved` is `["Indonesia", "English"]`, not `["General"]` as
claimed. -/
theorem createFallbackIntent_example_cex :
    (createFallbackIntent exampleQuestion).cultures_involved = ["Indonesia", "English"]
    ∧ (createFallbackIntent exampleQuestion).cultures_involved ≠ ["General"] := by
  constructor
  · decide
  · decide

/-- C6 (amended): on the exact example question the fallback classifier
returns `cultures_involved = ["Indonesia", "English"]`,
`primary_discipline = linguistics`, and subfields including
`pragmatics`. -/
theorem createFallbackIntent_example :
    (createFallbackIntent exampleQuestion).cultures_involved = ["Indonesia", "English"]
    ∧ (createFallbackIntent exampleQuestion).primary_discipline = .linguistics
    ∧ "pragmatics" ∈ (createFallbackIntent exampleQuestion).subfields := by
  refine ⟨by decide, by decide, by decide⟩

/-! ## Claims about the document store -/

/-- C9 counterexample: the load-time construction path accepts a document
violating the invariant instead of raising — `createDocument` performs no
validation, returning a document with no discipline tags on which the
(nowhere-invoked) validator fails. -/
theorem createDocument_accepts_invalid :
    (createDocument badDocArgs).discipline = []
    ∧ validateHumanitiesDocument (createDocument badDocArgs)
        = .error "Document must have at least one discipline" :=
  ⟨rfl, rfl⟩

/-- C9 (amended): every document in `HUMANITIES_KNOWLEDGE_BASE` satisfies
the document invariant, but load-time construction performs no
validation: `createDocument` silently accepts an invariant-violating
document rather than raising. -/
theorem knowledge_base_valid_but_unchecked :
    HUMANITIES_KNOWLEDGE_BASE.all (fun d => (validateHumanitiesDocument d).isOk) = true
    ∧ (validateHumanitiesDocument (createDocument badDocArgs)).isOk = false := by
  constructor
  · decide
  · decide

/-! ## Claims about the retriever -/

/-- The admission loop never grows its accumulator beyond `maxResults`. -/
theorem diversifyPass_length_le (intent : HumanitiesIntent) (maxResults : Nat) :
    ∀ (scored acc : List Scored) (dC : Option Discipline → Nat) (cC : Option String → Nat),
      acc.length ≤ maxResults →
      (diversifyPass intent maxResults scored acc dC cC).length ≤ maxResults := by
  intro scored
  induction scored with
  | nil =>
    intro acc dC cC h
    simpa only [diversifyPass] using h
  | cons item rest ih =>
    intro acc dC cC h
    simp only [diversifyPass]
    split
    · exact h
    · rename_i hfull
      split

      · exact ih acc dC cC h
      · split
        · split
          · exact ih acc dC cC h
          · refine ih _ _ _ ?_
            simp only [List.length_append, List.length_cons, List.length_nil]
            omega
        · refine ih _ _ _ ?_
          simp only [List.length_append, List.length_cons, List.length_nil]
          omega

/-- The backfill loop never grows its accumulator beyond `maxResults`. -/
theorem backfill_length_le (maxResults : Nat) :
    ∀ (scored acc : List Scored), acc.length ≤ maxResults →
      (backfill maxResults scored acc).length ≤ maxResults := by
  intro scored
  induction scored with
  | nil =>
    intro acc h
    simpa only [backfill] using h
  | cons item rest ih =>
    intro acc h
    simp only [backfill]
    split
    · exact h
    · rename_i hfull
      split
      · exact ih acc h
      · refine ih _ ?_
        simp only [List.length_append, List.length_cons, List.length_nil]
        omega

/-- `diversifyResults` returns at most `maxResults` documents. -/
theorem diversifyResults_length_le (scored : List Scored) (intent : HumanitiesIntent)
    (maxResults : Nat) :
    (diversifyResults scored intent maxResults).length ≤ maxResults := by
  simp only [diversifyResults]
  split
  · exact backfill_length_le _ _ _
      (diversifyPass_length_le _ _ _ _ _ _ (by simp))
  · exact diversifyPass_length_le _ _ _ _ _ _ (by simp)

/-- C8: for every knowledge base, query, intent and options, the list
returned by `hybridRetrieve` has length at most `opts.maxResults`. -/
theorem hybridRetrieve_length_le (kb : List HumanitiesDocument) (query : String)
    (intent : HumanitiesIntent) (opts : RetrievalOptions) :
    (hybridRetrieve kb query intent opts).length ≤ opts.maxResults := by
  simp only [hybridRetrieve, List.length_map]
  exact diversifyResults_length_le _ _ _

/-- Counting primary disciplines commutes with projecting documents out of
scored pairs. -/
theorem countPrimaryDiscipline_map (k : Option Discipline) (l : List Scored) :
    countPrimaryDiscipline k (l.map (fun s => s.doc)) = scoredCountDisc k l := by
  induction l with
  | nil => rfl
  | cons s rest ih =>
    simp only [List.map_cons, countPrimaryDiscipline, scoredCountDisc, List.filter_cons] at *
    by_cases h : s.doc.discipline.head? = k
    · simp [h, ih]
    · simp [h, ih]

/-- Counting primary cultures commutes with projecting documents out of
scored pairs. -/
theorem countPrimaryCulture_map (k : Option String) (l : List Scored) :
    countPrimaryCulture k (l.map (fun s => s.doc)) = scoredCountCult k l := by
  induction l with
  | nil => rfl
  | cons s rest ih =>
    simp only [List.map_cons, countPrimaryCulture, scoredCountCult, List.filter_cons] at *
    by_cases h : s.doc.culture.head? = k
    · simp [h, ih]
    · simp [h, ih]

/-- Appending one scored document changes the discipline count by the
indicator of its primary discipline. -/
theorem scoredCountDisc_append (k : Option Discipline) (acc : List Scored) (item : Scored) :
    scoredCountDisc k (acc ++ [item])
      = scoredCountDisc k acc + (if item.doc.discipline.head? = k then 1 else 0) := by
  simp only [scoredCountDisc, List.filter_append, List.length_append]
  by_cases h : item.doc.discipline.head? = k
  · simp [List.filter_cons, h]
  · simp [List.filter_cons, h]

/-- Appending one scored document changes the culture count by the
indicator of its primary culture. -/
theorem scoredCountCult_append (k : Option String) (acc : List Scored) (item : Scored) :
    scoredCountCult k (acc ++ [item])
      = scoredCountCult k acc + (if item.doc.culture.head? = k then 1 else 0) := by
  simp only [scoredCountCult, List.filter_append, List.length_append]
  by_cases h : item.doc.culture.head? = k
  · simp [List.filter_cons, h]
  · simp [List.filter_cons, h]

/-- Invariant of the admission loop: when the discipline count map is
accurate for the accumulator and below the cap, every discipline count of
the loop result stays below the cap. -/
theorem diversifyPass_disc_bound (intent : HumanitiesIntent) (maxResults : Nat) :
    ∀ (scored acc : List Scored) (dC : Option Discipline → Nat) (cC : Option String → Nat),
      (∀ k, scoredCountDisc k acc = dC k) →
      (∀ k, dC k ≤ ceilHalf maxResults) →
      ∀ k, scoredCountDisc k (diversifyPass intent maxResults scored acc dC cC)
        ≤ ceilHalf maxResults := by
  intro scored
  induction scored with
  | nil =>
    intro acc dC cC hacc hb k
    simp only [diversifyPass]
    rw [hacc k]
    exact hb k
  | cons item rest ih =>
    intro acc dC cC hacc hb k
    simp only [diversifyPass]
    split
    · rw [hacc k]; exact hb k
    · split
      · exact ih acc dC cC hacc hb k
      · rename_i hnd
        have hadmit1 : ∀ k2, scoredCountDisc k2 (acc ++ [item])
            = if k2 = item.doc.discipline.head? then dC k2 + 1 else dC k2 := by
          intro k2
          rw [scoredCountDisc_append, hacc k2]
          by_cases hk : k2 = item.doc.discipline.head?
          · subst hk
            simp
          · have hk2 : ¬ item.doc.discipline.head? = k2 := fun h2 => hk h2.symm
            simp [hk, hk2]
        have hadmit2 : ∀ k2, (if k2 = item.doc.discipline.head? then dC k2 + 1 else dC k2)
            ≤ ceilHalf maxResults := by
          intro k2
          by_cases hk : k2 = item.doc.discipline.head?
          · subst hk
            simp only [if_pos]
            omega
          · simp only [if_neg hk]
            exact hb k2
        split
        · split
          · exact ih acc dC cC hacc hb k
          · exact ih _ _ _ hadmit1 hadmit2 k
        · exact ih _ _ _ hadmit1 hadmit2 k

/-- Invariant of the admission loop for cultures, applicable when the
intent requires comparison (otherwise the loop does not track cultures). -/
theorem diversifyPass_cult_bound (intent : HumanitiesIntent) (maxResults : Nat)
    (hrc : intent.requires_comparison = true) :
    ∀ (scored acc : List Scored) (dC : Option Discipline → Nat) (cC : Option String → Nat),
      (∀ k, scoredCountCult k acc = cC k) →
      (∀ k, cC k ≤ ceilHalf maxResults) →
      ∀ k, scoredCountCult k (diversifyPass intent maxResults scored acc dC cC)
        ≤ ceilHalf maxResults := by
  intro scored
  induction scored with
  | nil =>
    intro acc dC cC hacc hb k
    simp only [diversifyPass]
    rw [hacc k]
    exact hb k
  | cons item rest ih =>
    intro acc dC cC hacc hb k
    simp only [diversifyPass]
    split
    · rw [hacc k]; exact hb k
    · split
      · exact ih acc dC cC hacc hb k
      · -- with `hrc` in scope the comparison branch is forced, so the
        -- next split is directly on the per-culture cap
        split
        · exact ih acc dC cC hacc hb k
        · rename_i hnc
          refine ih _ _ _ ?_ ?_ k
          · intro k2
            rw [scoredCountCult_append, hacc k2]
            by_cases hk : k2 = item.doc.culture.head?
            · subst hk
              simp
            · have hk2 : ¬ item.doc.culture.head? = k2 := fun h2 => hk h2.symm
              simp [hk, hk2]
          · intro k2
            by_cases hk : k2 = item.doc.culture.head?
            · subst hk
              simp only [if_pos]
              omega
            · simp only [if_neg hk]
              exact hb k2

/-- When the admission loop already fills every slot, the backfill loop is
skipped. -/
theorem diversifyResults_eq_pass_of_full (scored : List Scored) (intent : HumanitiesIntent)
    (maxResults : Nat)
    (h : (diversifyPass intent maxResults scored [] (fun _ => 0) (fun _ => 0)).length
        = maxResults) :
    diversifyResults scored intent maxResults
      = diversifyPass intent maxResults scored [] (fun _ => 0) (fun _ => 0) := by
  simp only [diversifyResults, h]
  simp

/-- C3 (amended): whenever the diversification pass admits a full
complement of `maxResults` documents (so the cap-ignoring backfill loop is
not entered), the list returned by `hybridRetrieve` contains no primary
discipline more than `ceil(maxResults/2)` times, and — when the intent
requires comparison — no primary culture more than `ceil(maxResults/2)`
times. -/
theorem hybridRetrieve_diversification_bound (kb : List HumanitiesDocument) (query : String)
    (intent : HumanitiesIntent) (opts : RetrievalOptions)
    (h : (diversifyPass intent opts.maxResults (retrieveCandidates kb query intent opts)
        [] (fun _ => 0) (fun _ => 0)).length = opts.maxResults) :
    (∀ k, countPrimaryDiscipline k (hybridRetrieve kb query intent opts)
        ≤ ceilHalf opts.maxResults)
    ∧ (intent.requires_comparison = true →
        ∀ k, countPrimaryCulture k (hybridRetrieve kb query intent opts)
          ≤ ceilHalf opts.maxResults) := by
  have hdiv := diversifyResults_eq_pass_of_full (retrieveCandidates kb query intent opts)
    intent opts.maxResults h
  constructor
  · intro k
    simp only [hybridRetrieve]
    rw [countPrimaryDiscipline_map, hdiv]
    exact diversifyPass_disc_bound intent opts.maxResults _ [] _ _
      (fun k2 => rfl) (fun k2 => Nat.zero_le _) k
  · intro hrc k
    simp only [hybridRetrieve]
    rw [countPrimaryCulture_map, hdiv]
    exact diversifyPass_cult_bound intent opts.maxResults hrc _ [] _ _
      (fun k2 => rfl) (fun k2 => Nat.zero_le _) k

/-- Witness for C3 (amended): on the two-document pool the pass fills both
slots and both bounds hold. -/
theorem hybridRetrieve_diversification_bound_witness :
    (∀ k, countPrimaryDiscipline k
        (hybridRetrieve diversifyWitKb "delta" diversifyWitIntent diversifyWitOpts)
        ≤ ceilHalf diversifyWitOpts.maxResults)
    ∧ (diversifyWitIntent.requires_comparison = true →
        ∀ k, countPrimaryCulture k
          (hybridRetrieve diversifyWitKb "delta" diversifyWitIntent diversifyWitOpts)
          ≤ ceilHalf diversifyWitOpts.maxResults) :=
  hybridRetrieve_diversification_bound diversifyWitKb "delta" diversifyWitIntent
    diversifyWitOpts (by decide)

/-- C3 counterexample: a pool where two distinct primary disciplines score
positively (so the claimed proviso holds with `ceil(4/2) = 2`), yet the
returned list contains three linguistics-primary documents, because the
backfill loop ignores the caps. -/
theorem hybridRetrieve_diversification_cex :
    countPrimaryDiscipline (some .linguistics)
        (hybridRetrieve diversifyCexKb "politeness" neutralIntent diversifyCexOpts) = 3
    ∧ ceilHalf diversifyCexOpts.maxResults = 2
    ∧ ((diversifyCexKb.filter
          (fun d => decide
            (0 < calculateRelevanceScore d "politeness" neutralIntent diversifyCexOpts))).map
        (fun d => d.discipline.head?)).dedup.length = 2 := by
  refine ⟨by decide, by decide, by decide⟩

/-! ## Claim about score monotonicity -/

/-- A fold whose step is monotone in the accumulator is monotone in its
initial value. -/
theorem foldl_mono_init {α : Type} (f : ℤ → α → ℤ)
    (hmono : ∀ s s' a, s ≤ s' → f s a ≤ f s' a) :
    ∀ (l : List α) (i i' : ℤ), i ≤ i' → l.foldl f i ≤ l.foldl f i' := by
  intro l
  induction l with
  | nil => intro i i' h; simpa using h
  | cons a rest ih =>
    intro i i' h
    simp only [List.foldl_cons]
    exact ih _ _ (hmono _ _ _ h)

/-- Inserting one element anywhere into the folded list never decreases a
fold whose step is monotone and never decreasing. -/
theorem foldl_insert_le {α : Type} (f : ℤ → α → ℤ)
    (hmono : ∀ s s' a, s ≤ s' → f s a ≤ f s' a)
    (hgrow : ∀ s a, s ≤ f s a) :
    ∀ (l1 l2 : List α) (c : α) (init : ℤ),
      List.foldl f init (l1 ++ l2) ≤ List.foldl f init (l1 ++ c :: l2) := by
  intro l1
  induction l1 with
  | nil =>
    intro l2 c init
    simp only [List.nil_append, List.foldl_cons]
    exact foldl_mono_init f hmono l2 _ _ (hgrow init c)
  | cons a t ih =>
    intro l2 c init
    simp only [List.cons_append, List.foldl_cons]
    exact ih l2 c (f init a)

/-- The source-type bonus numerator is nonnegative. -/
theorem sourceTypeBonus_nonneg (st : SourceType) :
    (0 : ℤ) ≤ SCORING_WEIGHTS.sourceTypeBonus st := by
  cases st <;> norm_num [SCORING_WEIGHTS.sourceTypeBonus]

/-- The confidence bonus numerator is nonnegative. -/
theorem confidenceBonus_nonneg (cf : Confidence) :
    (0 : ℤ) ≤ SCORING_WEIGHTS.confidenceBonus cf := by
  cases cf <;> norm_num [SCORING_WEIGHTS.confidenceBonus]

/-- C7: for every document, query and options, and every pair of intents
identical except that one has an additional `key_concepts` entry (inserted
at any position), the relevance score with the additional concept is at
least the score without it. -/
theorem calculateRelevanceScore_concept_mono (doc : HumanitiesDocument) (query : String)
    (opts : RetrievalOptions) (intent : HumanitiesIntent) (l1 l2 : List String) (c : String) :
    calculateRelevanceScore doc query { intent with key_concepts := l1 ++ l2 } opts
      ≤ calculateRelevanceScore doc query { intent with key_concepts := l1 ++ c :: l2 } opts := by
  simp only [calculateRelevanceScore]
  refine mul_le_mul_of_nonneg_right ?_ (sourceTypeBonus_nonneg doc.source_type)
  have hconcepts :
      ∀ init : ℤ,
        List.foldl
          (fun s concept =>
            let conceptLower := strToLower concept
            let sText := if strIncludes (strToLower doc.text) conceptLower then
                s + SCORING_WEIGHTS.conceptMatch
              else s
            if (doc.related_concepts.getD []).any
                (fun rc => strIncludes (strToLower rc) conceptLower) then
              sText + SCORING_WEIGHTS.conceptMatch / 2
            else sText) init (l1 ++ l2)
        ≤ List.foldl
          (fun s concept =>
            let conceptLower := strToLower concept
            let sText := if strIncludes (strToLower doc.text) conceptLower then
                s + SCORING_WEIGHTS.conceptMatch
              else s
            if (doc.related_concepts.getD []).any
                (fun rc => strIncludes (strToLower rc) conceptLower) then
              sText + SCORING_WEIGHTS.conceptMatch / 2
            else sText) init (l1 ++ c :: l2) := by
    intro init
    refine foldl_insert_le _ ?_ ?_ l1 l2 c init
    · intro s s' a h
      dsimp only
      split
      · split <;> omega
      · split <;> omega
    · intro s a
      dsimp only
      have hcm : SCORING_WEIGHTS.conceptMatch = 10 := rfl
      split
      · split <;> (try rw [hcm]) <;> omega
      · split <;> (try rw [hcm]) <;> omega
  have hquery :
      ∀ (ws : List String) (i i' : ℤ), i ≤ i' →
        List.foldl (fun s w => if strIncludes (strToLower doc.text) w then s + 3 else s) i ws
          ≤ List.foldl (fun s w => if strIncludes (strToLower doc.text) w then s + 3 else s) i' ws := by
    intro ws i i' h
    refine foldl_mono_init _ ?_ ws i i' h
    intro s s' a hss
    dsimp only
    split <;> omega
  split
  · exact mul_le_mul_of_nonneg_right (hquery _ _ _ (hconcepts _))
      (confidenceBonus_nonneg doc.confidence)
  · exact mul_le_mul_of_nonneg_right (hquery _ _ _ (hconcepts _)) (by norm_num)

end CulturalAI
